import Mathlib

/-!
Shallow embedding of the zerostep CDP adapter
(`src/packages/playwright/src/cdp.ts` and the companion playwright
command module). Each exported operation is modelled as a pure function
from its inputs and the protocol responses it consumes (an environment
record standing for the CDP backend) to the list of protocol calls it
issues and the value it returns. JavaScript numbers are modelled as
rationals, fallible paths as `Option`/`Except`.
-/

namespace ZeroStep

/-- Modelled from the spec: the element-reference property name comes from
`config.js`, which is not part of the sources; the spec only says it is a
fixed string constant naming the property under which element references
are nested ("A fixed string constant names the property under which element
references are nested in returned objects"). Its exact value is irrelevant
to every claim; any fixed string is faithful. -/
def WEBDRIVER_ELEMENT_KEY : String := "element-6066-11e4-a52e-4f735466cecf"

/-- Runtime JavaScript values, as far as the adapter inspects them:
`typeof` distinguishes booleans, numbers and strings (passed by value),
objects are queried for the element-reference key, and everything else
(null, undefined, functions, ...) falls through to the default branch. -/
inductive JSValue where
  | null
  | undefined
  | bool (b : Bool)
  | num (q : ℚ)
  | str (s : String)
  | obj (fields : List (String × JSValue))
  | func

/-- Lookup of an object property, modelling `arg[key]` / `Reflect.has`. -/
def getField : List (String × JSValue) → String → Option JSValue
  | [], _ => none
  | (k, v) :: rest, key => if k = key then some v else getField rest key

/-- Bool-valued membership test for an object property (`Reflect.has`). -/
def hasField (fields : List (String × JSValue)) (key : String) : Bool :=
  (getField fields key).isSome

/-- One marshalled argument of a `Runtime.callFunctionOn` protocol call:
either `\x7b value: v \x7d` or `\x7b objectId: v \x7d` in the source. -/
inductive CallArg where
  | value (v : JSValue)
  | objectId (v : JSValue)

/-- Argument marshalling of `executeScript` (cdp.ts lines 231-239):
`typeof arg` boolean/string/number passes the value through; a truthy
object owning `WEBDRIVER_ELEMENT_KEY` passes `arg[WEBDRIVER_ELEMENT_KEY]`
as an object id; everything else (null is falsy, undefined and functions
have a different `typeof`, objects without the key) becomes
`\x7b value: undefined \x7d`. -/
def marshalArg : JSValue → CallArg
  | JSValue.bool b => CallArg.value (JSValue.bool b)
  | JSValue.str s => CallArg.value (JSValue.str s)
  | JSValue.num q => CallArg.value (JSValue.num q)
  | JSValue.obj fields =>
      if hasField fields WEBDRIVER_ELEMENT_KEY then
        CallArg.objectId ((getField fields WEBDRIVER_ELEMENT_KEY).getD JSValue.undefined)
      else
        CallArg.value JSValue.undefined
  | _ => CallArg.value JSValue.undefined

/-- Protocol calls the adapter can issue, recorded as a trace. Only the
parameters the claims are about are kept. -/
inductive CdpCall where
  | requestNode (objectId : String)
  | focus (nodeId : ℕ)
  | dispatchKeyEvent (eventType : String) (text : String)
  | getAttributes (nodeId : ℕ)
  | getDocument (depth : ℤ)
  | domQuerySelectorAll (nodeId : ℕ) (selector : String)
  | resolveNode (nodeId : ℕ)
  | runtimeEnable
  | evaluate (expression : String)
  | callFunctionOn (functionDeclaration : String) (arguments : List CallArg)
      (returnByValue : Bool)
  | getProperties (objectId : Option String)

/-- Element reference as returned to the WebDriver client: an object with
the single computed key `WEBDRIVER_ELEMENT_KEY` holding a remote object id
(optional on the wire). -/
structure ElementRef where
  key : String
  objectId : Option String
  deriving DecidableEq, Repr

/-- Responses of the backend consumed by `querySelectorAll`: root document
node id, the node ids matching the selector, and the object id each
`DOM.resolveNode` response carries. -/
structure QueryEnv where
  rootNodeId : ℕ
  nodeIds : List ℕ
  objectIdOf : ℕ → Option String

/-- querySelectorAll (cdp.ts lines 212-220): fetch the document, run
`DOM.querySelectorAll` at its root, resolve every returned node id and
wrap each resolved object id as an element reference. -/
def querySelectorAll (env : QueryEnv) (selector : String) :
    List CdpCall × List ElementRef :=
  ([CdpCall.getDocument (-1), CdpCall.domQuerySelectorAll env.rootNodeId selector]
     ++ env.nodeIds.map CdpCall.resolveNode,
   env.nodeIds.map (fun nodeId => ⟨WEBDRIVER_ELEMENT_KEY, env.objectIdOf nodeId⟩))

/-- findElements (cdp.ts lines 199-210). The special-case guard on
`args.value` being the string "iframe" fires before the strategy switch,
so that selector value short-circuits to an empty result for every
strategy; otherwise the strategies `css selector` and `tag name` (two case
labels falling through to the same arm) query, and any other strategy
throws. -/
def findElements (env : QueryEnv) (strategy : String) (value : String) :
    List CdpCall × Except String (List ElementRef) :=
  if value = "iframe" then ([], Except.ok [])
  else if strategy = "css selector" ∨ strategy = "tag name" then
    let r := querySelectorAll env value
    (r.1, Except.ok r.2)
  else ([], Except.error ("Unsupported findElements strategy " ++ strategy))

/-- sendKeysToElement (cdp.ts lines 91-106): take the first string of the
argument array, request the node, focus it, then dispatch one
`Input.dispatchKeyEvent` of type `char` per character, in order, and
return true. (On an empty argument array the source throws a TypeError
reading `value.length`; that path is modelled as `none`.) -/
def sendKeysToElement (objectId : String) (value : List String) (nodeId : ℕ) :
    Option (List CdpCall × Bool) :=
  match value with
  | [] => none
  | s :: _ =>
      some ([CdpCall.requestNode objectId, CdpCall.focus nodeId]
              ++ s.toList.map (fun c => CdpCall.dispatchKeyEvent "char" (String.mk [c])),
            true)

/-- Attribute scan of `getElementAttribute` (cdp.ts lines 114-118): walk
the flattened name/value list, and at the first index holding the requested
name return the next entry (`undefined`, i.e. `none`, when the match is
the final entry or there is no match). -/
def attrScan : List String → String → Option String
  | [], _ => none
  | a :: rest, name => if a = name then rest.head? else attrScan rest name

/-- getElementAttribute (cdp.ts lines 108-119): request the node, fetch its
flattened attribute list, scan it for the requested name. `nodeId` and
`attributes` are the backend responses for the two protocol calls. -/
def getElementAttribute (objectId : String) (name : String) (nodeId : ℕ)
    (attributes : List String) : List CdpCall × Option String :=
  ([CdpCall.requestNode objectId, CdpCall.getAttributes nodeId],
   attrScan attributes name)

/-- JavaScript `parseInt` returns NaN exactly when, after skipping leading
whitespace and an optional sign, the input does not start with a digit;
used by the NodeList branch of `executeScript` to keep indexed own
properties. -/
def parseIntReturnsNaN (s : String) : Bool :=
  match (s.toList.dropWhile (fun c => c = ' ' ∨ c = '\t' ∨ c = '\n' ∨ c = '\r')) with
  | [] => true
  | c :: rest =>
      match (if c = '+' ∨ c = '-' then rest else c :: rest) with
      | [] => true
      | d :: _ => ! d.isDigit

/-- Remote object description inside a protocol response, as far as
`executeScript` inspects it: `className`, `objectId` (both optional on the
wire) and the by-value payload of the second evaluation. -/
structure RemoteObject where
  className : Option String
  objectId : Option String

/-- Backend responses consumed by `executeScript`: the object id of
`window`, the remote object describing the result of the first invocation,
the
own properties (name, `value?.objectId`) returned by
`Runtime.getProperties` in the NodeList branch, and the by-value result of
the second invocation in the default branch. -/
structure ExecEnv where
  windowObjectId : Option String
  firstResult : RemoteObject
  ownProperties : List (String × Option String)
  secondValue : JSValue

/-- Result of `executeScript`: a list of element references (NodeList), a
single element reference (root HTML element), or a plain copied value. -/
inductive ExecResult where
  | refs (l : List ElementRef)
  | ref (r : ElementRef)
  | value (v : JSValue)

/-- executeScript (cdp.ts lines 229-271): wrap the script in a function
declaration, marshal the arguments, enable the runtime, evaluate `window`,
invoke the function on it; when the class name of the result is `NodeList`
fetch its own properties and wrap every indexed one as an element
reference, when it is `HTMLHtmlElement` wrap the returned object id, and
otherwise invoke the function a second time with `returnByValue` to copy
the value out. -/
def executeScript (env : ExecEnv) (script : String) (args : List JSValue) :
    List CdpCall × ExecResult :=
  let functionDeclaration := "function() \x7b " ++ script ++ " \x7d"
  let functionArgs := args.map marshalArg
  let baseTrace := [CdpCall.runtimeEnable, CdpCall.evaluate "window",
                    CdpCall.callFunctionOn functionDeclaration functionArgs false]
  if env.firstResult.className = some "NodeList" then
    (baseTrace ++ [CdpCall.getProperties env.firstResult.objectId],
     ExecResult.refs (env.ownProperties.filterMap (fun e =>
       if parseIntReturnsNaN e.1 then none else some ⟨WEBDRIVER_ELEMENT_KEY, e.2⟩)))
  else if env.firstResult.className = some "HTMLHtmlElement" then
    (baseTrace, ExecResult.ref ⟨WEBDRIVER_ELEMENT_KEY, env.firstResult.objectId⟩)
  else
    (baseTrace ++ [CdpCall.callFunctionOn functionDeclaration functionArgs true],
     ExecResult.value env.secondValue)

/-- Test selecting the `Runtime.callFunctionOn` entries of a trace. -/
def isCallFunctionOn : CdpCall → Bool
  | CdpCall.callFunctionOn _ _ _ => true
  | _ => false

/-- Test selecting the character key-input events of a trace. -/
def isCharKeyEvent : CdpCall → Bool
  | CdpCall.dispatchKeyEvent _ _ => true
  | _ => false

/-- State of the module-level session cache: the `Map` from page handle to
CDP session (insertion-ordered association list, keys unique as in a JS
`Map`) together with an allocator supplying the fresh session object that
`page.context().newCDPSession(page)` would create. Pages and sessions are
identified by naturals. -/
structure CdpState where
  cdpSessionByPage : List (ℕ × ℕ)
  nextSessionId : ℕ

/-- Map.has: some entry carries the key. -/
def mapHas (m : List (ℕ × ℕ)) (page : ℕ) : Bool :=
  m.any (fun e => e.1 == page)

/-- Map.get: value of the first (unique) entry carrying the key. -/
def mapGet (m : List (ℕ × ℕ)) (page : ℕ) : Option ℕ :=
  (m.find? (fun e => e.1 == page)).map Prod.snd

/-- Map.set: replace the value in place when the key is present, append a
new entry otherwise. -/
def mapSet (m : List (ℕ × ℕ)) (page session : ℕ) : List (ℕ × ℕ) :=
  if mapHas m page then
    m.map (fun e => if e.1 == page then (page, session) else e)
  else
    m ++ [(page, session)]

/-- Map.delete: drop the entry carrying the key. -/
def mapDelete (m : List (ℕ × ℕ)) (page : ℕ) : List (ℕ × ℕ) :=
  m.filter (fun e => e.1 != page)

/-- getCDPSession (cdp.ts lines 21-28): when the page has no cached
session, create a fresh one and store it; then return the cache entry
(`.get(page)!`, hence the `Option`). -/
def getCDPSession (s : CdpState) (page : ℕ) : Option ℕ × CdpState :=
  let s1 :=
    if mapHas s.cdpSessionByPage page then s
    else { cdpSessionByPage := mapSet s.cdpSessionByPage page s.nextSessionId,
           nextSessionId := s.nextSessionId + 1 }
  (mapGet s1.cdpSessionByPage page, s1)

/-- detachCPDSession (cdp.ts lines 11-16): when the page has a cached
session, detach it (an external call on the session object) and delete the
cache entry; otherwise do nothing. -/
def detachCPDSession (s : CdpState) (page : ℕ) : CdpState :=
  if mapHas s.cdpSessionByPage page then
    { s with cdpSessionByPage := mapDelete s.cdpSessionByPage page }
  else s

/-- Operations on the shared session cache. -/
inductive CdpOp where
  | get (page : ℕ)
  | detach (page : ℕ)

/-- Effect of one cache operation on the state. -/
def applyOp (s : CdpState) : CdpOp → CdpState
  | CdpOp.get page => (getCDPSession s page).2
  | CdpOp.detach page => detachCPDSession s page

/-- Effect of a sequence of cache operations. -/
def runOps (s : CdpState) (ops : List CdpOp) : CdpState :=
  ops.foldl applyOp s

/-- The cache maps each page handle to at most one session: its keys are
pairwise distinct. -/
def atMostOneSessionPerPage (s : CdpState) : Prop :=
  (s.cdpSessionByPage.map Prod.fst).Nodup

/-- Scroll-relevant page state read and written by `scrollPage`: the
`scrollTop` and `scrollHeight` of the scrolling element, and
`window.visualViewport?.height` (absent when the viewport is undefined). -/
structure ScrollState where
  scrollTop : ℚ
  scrollHeight : ℚ
  visualViewportHeight : Option ℚ
  deriving DecidableEq, Repr

/-- scrollPage (playwright command module, lines 66-87): inside the page,
pick the viewport height (default 720), compute 75% of it, and scroll the
scrolling element to the top, to the bottom, or by that distance up or
down; any other target throws and leaves the scroll state unchanged. The
target is a plain string at runtime. -/
def scrollPage (st : ScrollState) (target : String) : Except String ScrollState :=
  let viewportHeight := st.visualViewportHeight.getD 720
  let relativeScrollDistance := (3 / 4 : ℚ) * viewportHeight
  if target = "top" then Except.ok { st with scrollTop := 0 }
  else if target = "bottom" then Except.ok { st with scrollTop := st.scrollHeight }
  else if target = "up" then
    Except.ok { st with scrollTop := st.scrollTop - relativeScrollDistance }
  else if target = "down" then
    Except.ok { st with scrollTop := st.scrollTop + relativeScrollDistance }
  else Except.error ("Unsupported scroll target " ++ target)

/-- Geometry derived by `getContentQuads` from the first quad of a
`DOM.getContentQuads` response. -/
structure QuadGeometry where
  topLeftX : ℚ
  topLeftY : ℚ
  topRightX : ℚ
  topRightY : ℚ
  bottomRightX : ℚ
  bottomRightY : ℚ
  bottomLeftX : ℚ
  bottomLeftY : ℚ
  width : ℚ
  height : ℚ
  centerX : ℚ
  centerY : ℚ
  deriving DecidableEq, Repr

/-- getContentQuads (cdp.ts lines 157-181): destructure the first quad of
the response into four corners, then derive width (top edge), height
(right edge), and the center point. A response without a first quad of at
least eight coordinates is a runtime failure of the destructuring,
modelled as `none`. -/
def getContentQuads (quads : List (List ℚ)) : Option QuadGeometry :=
  match quads with
  | [] => none
  | q :: _ =>
      match q with
      | topLeftX :: topLeftY :: topRightX :: topRightY ::
        bottomRightX :: bottomRightY :: bottomLeftX :: bottomLeftY :: _ =>
          let width := topRightX - topLeftX
          let height := bottomRightY - topRightY
          some ⟨topLeftX, topLeftY, topRightX, topRightY,
                bottomRightX, bottomRightY, bottomLeftX, bottomLeftY,
                width, height, topLeftX + width / 2, topRightY + height / 2⟩
      | _ => none

/-! Theorems settling the claims. -/

/-- C1, counterexample: the claim as stated is false. The special case in
findElements keys on the selector value, not on the strategy: for strategy
"iframe" and selector value "div" the call throws the unsupported-strategy
error instead of returning an empty list. -/
theorem findElements_strategy_iframe_counterexample :
    (findElements ⟨1, [], fun _ => none⟩ "iframe" "div").2
      = Except.error ("Unsupported findElements strategy " ++ "iframe")
  ∧ (findElements ⟨1, [], fun _ => none⟩ "iframe" "div").2
      ≠ Except.ok ([] : List ElementRef) := by
  refine ⟨rfl, ?_⟩
  simp [findElements]

/-- C1, amended: for every strategy and every backend environment, calling
findElements with selector value "iframe" returns an empty element list
without issuing any protocol call (in particular no query-selector
call). -/
theorem findElements_value_iframe_empty (env : QueryEnv) (strategy : String) :
    findElements env strategy "iframe" = ([], Except.ok []) := by
  simp [findElements]

/-- C2, counterexample: the claim as stated is false. With the unsupported
strategy "xpath" but selector value "iframe", the special-case guard fires
first: the call returns an empty list and raises no error. -/
theorem findElements_unsupported_strategy_counterexample :
    (findElements ⟨1, [], fun _ => none⟩ "xpath" "iframe").2
      = Except.ok ([] : List ElementRef)
  ∧ (findElements ⟨1, [], fun _ => none⟩ "xpath" "iframe").2
      ≠ Except.error ("Unsupported findElements strategy " ++ "xpath") := by
  refine ⟨rfl, ?_⟩
  simp [findElements]

/-- C2, amended: for every strategy other than "css selector" and
"tag name", and every selector value other than "iframe", findElements
throws an error naming the unsupported strategy and issues no protocol
call. -/
theorem findElements_unsupported_strategy_raises (env : QueryEnv)
    (strategy value : String) (h1 : strategy ≠ "css selector")
    (h2 : strategy ≠ "tag name") (hv : value ≠ "iframe") :
    findElements env strategy value
      = ([], Except.error ("Unsupported findElements strategy " ++ strategy)) := by
  unfold findElements
  rw [if_neg hv, if_neg (by simp [h1, h2])]

/-- Witness for the amended C2 at the concrete input of the claim. -/
theorem findElements_unsupported_strategy_raises_witness :
    findElements ⟨1, [], fun _ => none⟩ "xpath" "div"
      = ([], Except.error ("Unsupported findElements strategy " ++ "xpath")) :=
  findElements_unsupported_strategy_raises ⟨1, [], fun _ => none⟩ "xpath" "div"
    (by decide) (by decide) (by decide)

/-- C3, confirmed: sendKeysToElement first focuses the target node and
then dispatches exactly one character key-input event per character of the
provided string, in the order the characters appear: the whole trace is a
prefix free of key events, then the focus on the target node, then exactly
the per-character events. -/
theorem sendKeysToElement_focus_then_chars (objectId : String) (s : String)
    (rest : List String) (nodeId : ℕ) :
    ∃ pre : List CdpCall,
      sendKeysToElement objectId (s :: rest) nodeId
        = some (pre ++ CdpCall.focus nodeId ::
            s.toList.map (fun c => CdpCall.dispatchKeyEvent "char" (String.mk [c])), true)
      ∧ pre.filter isCharKeyEvent = [] :=
  ⟨[CdpCall.requestNode objectId], rfl, rfl⟩

/-- C4, confirmed: the argument marshalling of executeScript passes
booleans, numbers and strings by value; an object possessing the
element-reference key is passed by the backend object id stored under that
key; every other argument (null, undefined, a function, an object without
the key) is passed as an undefined value. -/
theorem executeScript_marshals_arguments (v : JSValue) :
    ((∃ b, v = JSValue.bool b) ∨ (∃ q, v = JSValue.num q) ∨ (∃ s, v = JSValue.str s) →
        marshalArg v = CallArg.value v)
  ∧ (∀ fields, v = JSValue.obj fields → hasField fields WEBDRIVER_ELEMENT_KEY = true →
        marshalArg v
          = CallArg.objectId ((getField fields WEBDRIVER_ELEMENT_KEY).getD JSValue.undefined))
  ∧ ((∀ b, v ≠ JSValue.bool b) → (∀ q, v ≠ JSValue.num q) → (∀ s, v ≠ JSValue.str s) →
     (∀ fields, v = JSValue.obj fields → hasField fields WEBDRIVER_ELEMENT_KEY = false) →
        marshalArg v = CallArg.value JSValue.undefined) := by
  refine ⟨?_, ?_, ?_⟩
  · rintro (⟨b, rfl⟩ | ⟨q, rfl⟩ | ⟨s, rfl⟩) <;> rfl
  · rintro fields rfl hkey
    simp [marshalArg, hkey]
  · intro hb hq hs hobj
    cases v with
    | bool b => exact absurd rfl (hb b)
    | num q => exact absurd rfl (hq q)
    | str s => exact absurd rfl (hs s)
    | obj fields => simp [marshalArg, hobj fields rfl]
    | null => rfl
    | undefined => rfl
    | func => rfl

/-- Witness for C4 at two concrete arguments: a string passes by value and
null becomes an undefined value. -/
theorem executeScript_marshals_arguments_witness :
    marshalArg (JSValue.str "a") = CallArg.value (JSValue.str "a")
  ∧ marshalArg JSValue.null = CallArg.value JSValue.undefined :=
  ⟨(executeScript_marshals_arguments (JSValue.str "a")).1 (Or.inr (Or.inr ⟨"a", rfl⟩)),
   (executeScript_marshals_arguments JSValue.null).2.2
     (fun _ h => JSValue.noConfusion h) (fun _ h => JSValue.noConfusion h)
     (fun _ h => JSValue.noConfusion h) (fun _ h => JSValue.noConfusion h)⟩

/-- A page absent from the map means no entry carries its key. -/
lemma mapHas_eq_false_iff (m : List (ℕ × ℕ)) (page : ℕ) :
    mapHas m page = false ↔ ∀ e ∈ m, e.1 ≠ page := by
  simp [mapHas]

/-- Setting a session for an absent page appends a new entry. -/
lemma mapSet_of_not_has (m : List (ℕ × ℕ)) (page v : ℕ)
    (h : mapHas m page = false) : mapSet m page v = m ++ [(page, v)] := by
  unfold mapSet
  rw [if_neg (by simp [h])]

/-- Getting the page just appended to the map finds its session. -/
lemma mapGet_append_new (m : List (ℕ × ℕ)) (page v : ℕ)
    (h : mapHas m page = false) : mapGet (m ++ [(page, v)]) page = some v := by
  induction m with
  | nil => simp [mapGet]
  | cons e rest ih =>
      rw [mapHas_eq_false_iff] at h
      have h1 : (e.1 == page) = false := by
        simpa using h e (List.mem_cons_self e rest)
      have h2 : mapHas rest page = false := by
        rw [mapHas_eq_false_iff]
        exact fun x hx => h x (List.mem_cons_of_mem e hx)
      simpa [mapGet, List.find?_cons, h1] using ih h2

/-- The page just appended to the map is present. -/
lemma mapHas_append_new (m : List (ℕ × ℕ)) (page v : ℕ) :
    mapHas (m ++ [(page, v)]) page = true := by
  simp [mapHas]

/-- A page with a cached session is present in the map. -/
lemma mapHas_eq_true_of_mapGet (m : List (ℕ × ℕ)) (page v : ℕ)
    (h : mapGet m page = some v) : mapHas m page = true := by
  unfold mapGet at h
  cases hf : m.find? (fun e => e.1 == page) with
  | none => rw [hf] at h; exact Option.noConfusion h
  | some e =>
      unfold mapHas
      rw [List.any_eq_true]
      have hp := List.find?_some hf
      exact ⟨e, List.mem_of_find?_eq_some hf, hp⟩

/-- Deleting the page just appended restores the previous map. -/
lemma mapDelete_append_new (m : List (ℕ × ℕ)) (page v : ℕ)
    (h : mapHas m page = false) : mapDelete (m ++ [(page, v)]) page = m := by
  rw [mapHas_eq_false_iff] at h
  unfold mapDelete
  rw [List.filter_append]
  have h2 : List.filter (fun e => e.1 != page) [(page, v)] = [] := by simp
  rw [h2, List.append_nil]
  exact List.filter_eq_self.mpr (fun e he => by simpa using h e he)

/-- C5, confirmed: on a page with no cached session, getCDPSession returns
the freshly created session and allocates exactly one; an immediately
subsequent call returns the identical session and leaves the state
untouched; moreover on any state whatsoever in which the page holds a
cached session, getCDPSession returns exactly that session without
changing the state, so every later call keeps returning the identical
object; after detachCPDSession, the next call returns a session distinct
from the first one. -/
theorem getCDPSession_memoizes (s : CdpState) (page : ℕ)
    (h : mapHas s.cdpSessionByPage page = false) :
    (getCDPSession s page).1 = some s.nextSessionId
  ∧ ((getCDPSession s page).2).nextSessionId = s.nextSessionId + 1
  ∧ (getCDPSession (getCDPSession s page).2 page).1 = (getCDPSession s page).1
  ∧ (getCDPSession (getCDPSession s page).2 page).2 = (getCDPSession s page).2
  ∧ (getCDPSession (detachCPDSession (getCDPSession s page).2 page) page).1
      = some (s.nextSessionId + 1)
  ∧ (getCDPSession (detachCPDSession (getCDPSession s page).2 page) page).1
      ≠ (getCDPSession s page).1
  ∧ (∀ (t : CdpState) (v : ℕ), mapGet t.cdpSessionByPage page = some v →
        getCDPSession t page = (some v, t)) := by
  have hget1 : getCDPSession s page
      = (some s.nextSessionId,
         ⟨s.cdpSessionByPage ++ [(page, s.nextSessionId)], s.nextSessionId + 1⟩) := by
    unfold getCDPSession
    rw [if_neg (by simp [h]), mapSet_of_not_has _ _ _ h]
    simp [mapGet_append_new _ _ _ h]
  have hget2 : getCDPSession
      (⟨s.cdpSessionByPage ++ [(page, s.nextSessionId)], s.nextSessionId + 1⟩ : CdpState) page
      = (some s.nextSessionId,
         ⟨s.cdpSessionByPage ++ [(page, s.nextSessionId)], s.nextSessionId + 1⟩) := by
    unfold getCDPSession
    rw [if_pos (by simp [mapHas_append_new])]
    simp [mapGet_append_new _ _ _ h]
  have hdetach : detachCPDSession
      (⟨s.cdpSessionByPage ++ [(page, s.nextSessionId)], s.nextSessionId + 1⟩ : CdpState) page
      = ⟨s.cdpSessionByPage, s.nextSessionId + 1⟩ := by
    unfold detachCPDSession
    rw [if_pos (by simp [mapHas_append_new])]
    simp [mapDelete_append_new _ _ _ h]
  have hget3 : getCDPSession (⟨s.cdpSessionByPage, s.nextSessionId + 1⟩ : CdpState) page
      = (some (s.nextSessionId + 1),
         ⟨s.cdpSessionByPage ++ [(page, s.nextSessionId + 1)], s.nextSessionId + 2⟩) := by
    unfold getCDPSession
    rw [if_neg (by simp [h]), mapSet_of_not_has _ _ _ h]
    simp [mapGet_append_new _ _ _ h]
  refine ⟨by rw [hget1], by rw [hget1], ?_, ?_, ?_, ?_, ?_⟩
  · rw [hget1]
    simpa using hget2.symm ▸ rfl
  · rw [hget1]
    simpa using congrArg Prod.snd hget2
  · rw [hget1]
    simp only [hdetach]
    simpa using congrArg Prod.fst hget3
  · rw [hget1]
    simp only [hdetach]
    rw [show (getCDPSession (⟨s.cdpSessionByPage, s.nextSessionId + 1⟩ : CdpState) page).1
          = some (s.nextSessionId + 1) from congrArg Prod.fst hget3]
    simp
  · intro t v hv
    unfold getCDPSession
    rw [if_pos (mapHas_eq_true_of_mapGet _ _ _ hv)]
    show (mapGet t.cdpSessionByPage page, t) = (some v, t)
    rw [hv]

/-- Witness for C5 at the empty cache and page handle 0, with the
memoization conjunct instantiated at a cache already holding session 5
for the page. -/
theorem getCDPSession_memoizes_witness :
    (getCDPSession ⟨[], 0⟩ 0).1 = some 0
  ∧ ((getCDPSession ⟨[], 0⟩ 0).2).nextSessionId = 0 + 1
  ∧ (getCDPSession (getCDPSession ⟨[], 0⟩ 0).2 0).1 = (getCDPSession ⟨[], 0⟩ 0).1
  ∧ (getCDPSession (getCDPSession ⟨[], 0⟩ 0).2 0).2 = (getCDPSession ⟨[], 0⟩ 0).2
  ∧ (getCDPSession (detachCPDSession (getCDPSession ⟨[], 0⟩ 0).2 0) 0).1 = some (0 + 1)
  ∧ (getCDPSession (detachCPDSession (getCDPSession ⟨[], 0⟩ 0).2 0) 0).1
      ≠ (getCDPSession ⟨[], 0⟩ 0).1
  ∧ getCDPSession ⟨[(0, 5)], 6⟩ 0 = (some 5, ⟨[(0, 5)], 6⟩) := by
  obtain ⟨c1, c2, c3, c4, c5, c6, c7⟩ := getCDPSession_memoizes ⟨[], 0⟩ 0 rfl
  exact ⟨c1, c2, c3, c4, c5, c6, c7 ⟨[(0, 5)], 6⟩ 5 rfl⟩

/-- A page absent from the cache is not among its keys. -/
lemma not_mem_keys_of_not_has (m : List (ℕ × ℕ)) (page : ℕ)
    (h : mapHas m page = false) : page ∉ m.map Prod.fst := by
  rw [mapHas_eq_false_iff] at h
  intro hmem
  obtain ⟨e, he, hfst⟩ := List.mem_map.mp hmem
  exact h e he hfst

/-- One cache operation preserves uniqueness of the cached page keys. -/
lemma applyOp_preserves_unique (s : CdpState) (op : CdpOp)
    (h : atMostOneSessionPerPage s) : atMostOneSessionPerPage (applyOp s op) := by
  cases op with
  | get page =>
      show atMostOneSessionPerPage (getCDPSession s page).2
      rcases hc : mapHas s.cdpSessionByPage page with _ | _
      · have hstep : (getCDPSession s page).2
            = ⟨s.cdpSessionByPage ++ [(page, s.nextSessionId)], s.nextSessionId + 1⟩ := by
          unfold getCDPSession
          rw [if_neg (by simp [hc]), mapSet_of_not_has _ _ _ hc]
        rw [hstep]
        unfold atMostOneSessionPerPage at h ⊢
        simp only [List.map_append, List.map_cons, List.map_nil]
        rw [List.nodup_append]
        exact ⟨h, List.nodup_singleton page,
          by simpa [List.disjoint_singleton] using not_mem_keys_of_not_has _ _ hc⟩
      · have hstep : (getCDPSession s page).2 = s := by
          unfold getCDPSession
          rw [if_pos hc]
        rw [hstep]
        exact h
  | detach page =>
      show atMostOneSessionPerPage (detachCPDSession s page)
      unfold detachCPDSession
      by_cases hc : mapHas s.cdpSessionByPage page = true
      · rw [if_pos hc]
        unfold atMostOneSessionPerPage at h ⊢
        exact ((List.filter_sublist _).map Prod.fst).nodup h
      · rw [if_neg hc]
        exact h

/-- C6, confirmed: every sequence of getCDPSession and detachCPDSession
operations preserves the invariant that the cache maps each page handle to
at most one session (its keys stay pairwise distinct), because membership
is checked before a new session is created. -/
theorem session_cache_at_most_one (ops : List CdpOp) (s : CdpState)
    (h : atMostOneSessionPerPage s) : atMostOneSessionPerPage (runOps s ops) := by
  induction ops generalizing s with
  | nil => exact h
  | cons op rest ih => exact ih (applyOp s op) (applyOp_preserves_unique s op h)

/-- Witness for C6 on a concrete operation sequence from the empty
cache. -/
theorem session_cache_at_most_one_witness :
    atMostOneSessionPerPage
      (runOps ⟨[], 0⟩ [CdpOp.get 1, CdpOp.get 1, CdpOp.detach 1, CdpOp.get 2]) :=
  session_cache_at_most_one [CdpOp.get 1, CdpOp.get 1, CdpOp.detach 1, CdpOp.get 2]
    ⟨[], 0⟩ (by simp [atMostOneSessionPerPage])

/-- A name absent from the flattened attribute list scans to none. -/
lemma attrScan_eq_none_of_not_mem (attributes : List String) (name : String)
    (h : name ∉ attributes) : attrScan attributes name = none := by
  induction attributes with
  | nil => rfl
  | cons a rest ih =>
      unfold attrScan
      rw [if_neg (fun hh => List.ne_of_not_mem_cons h hh.symm)]
      exact ih (List.not_mem_of_not_mem_cons h)

/-- Scanning finds the entry following the first occurrence of the name. -/
lemma attrScan_first (pre : List String) (name v : String) (rest : List String)
    (h : name ∉ pre) : attrScan (pre ++ name :: v :: rest) name = some v := by
  induction pre with
  | nil => simp [attrScan]
  | cons a tail ih =>
      show attrScan (a :: (tail ++ name :: v :: rest)) name = some v
      unfold attrScan
      rw [if_neg (fun hh => List.ne_of_not_mem_cons h hh.symm)]
      exact ih (List.not_mem_of_not_mem_cons h)

/-- C7, confirmed: getElementAttribute returns the value immediately
following the first occurrence of the requested name in the flattened
name/value attribute list, and an unset value when the name does not
occur. -/
theorem getElementAttribute_spec (objectId name : String) (nodeId : ℕ)
    (attributes : List String) :
    (name ∉ attributes → (getElementAttribute objectId name nodeId attributes).2 = none)
  ∧ (∀ pre v rest, attributes = pre ++ name :: v :: rest → name ∉ pre →
      (getElementAttribute objectId name nodeId attributes).2 = some v) := by
  constructor
  · intro h
    exact attrScan_eq_none_of_not_mem attributes name h
  · rintro pre v rest rfl h
    exact attrScan_first pre name v rest h

/-- Witness for C7 at the concrete example of the claim: attribute list
[id, "foo"] and requested name id yield "foo". -/
theorem getElementAttribute_spec_witness :
    (getElementAttribute "5" "id" 1 ["id", "foo"]).2 = some "foo" :=
  (getElementAttribute_spec "5" "id" 1 ["id", "foo"]).2 [] "foo" [] rfl (by simp)

/-- C8, confirmed: scrollPage with target top sets scrollTop to 0, with
bottom sets it to the scroll height, with up and down adjusts it by
exactly 75% of the current viewport height in the corresponding sign, and
with any other target value raises an error naming the target and returns
no new scroll state (the scroll state is unchanged). -/
theorem scrollPage_spec (st : ScrollState) (target : String) :
    scrollPage st "top" = Except.ok { st with scrollTop := 0 }
  ∧ scrollPage st "bottom" = Except.ok { st with scrollTop := st.scrollHeight }
  ∧ (∀ h, st.visualViewportHeight = some h →
        scrollPage st "up" = Except.ok { st with scrollTop := st.scrollTop - 3 / 4 * h }
      ∧ scrollPage st "down" = Except.ok { st with scrollTop := st.scrollTop + 3 / 4 * h })
  ∧ (target ≠ "top" → target ≠ "bottom" → target ≠ "up" → target ≠ "down" →
        scrollPage st target = Except.error ("Unsupported scroll target " ++ target)) := by
  refine ⟨rfl, rfl, ?_, ?_⟩
  · intro h hv
    constructor <;> simp [scrollPage, hv]
  · intro h1 h2 h3 h4
    unfold scrollPage
    rw [if_neg (by simp [h1]), if_neg (by simp [h2]), if_neg (by simp [h3]),
        if_neg (by simp [h4])]

/-- Witness for C8 at a concrete scroll state and the unsupported target
"left". -/
theorem scrollPage_spec_witness :
    scrollPage ⟨100, 2000, some 600⟩ "top" = Except.ok ⟨0, 2000, some 600⟩
  ∧ scrollPage ⟨100, 2000, some 600⟩ "up"
      = Except.ok ⟨100 - 3 / 4 * 600, 2000, some 600⟩
  ∧ scrollPage ⟨100, 2000, some 600⟩ "left"
      = Except.error ("Unsupported scroll target " ++ "left") := by
  obtain ⟨h1, _, h3, h4⟩ := scrollPage_spec ⟨100, 2000, some 600⟩ "left"
  exact ⟨h1, (h3 600 rfl).1, h4 (by decide) (by decide) (by decide) (by decide)⟩

/-- C9, confirmed: from a first quad with corners (x0, y0), (x1, y1),
(x2, y2), (x3, y3), getContentQuads derives width x1 - x0, height
y2 - y1, centerX x0 + width / 2 and centerY y1 + height / 2; at the
corners (0,0), (10,0), (10,20), (0,20) the center is (5, 10) and
width/height are (10, 20). -/
theorem getContentQuads_geometry (x0 y0 x1 y1 x2 y2 x3 y3 : ℚ)
    (restq : List ℚ) (restl : List (List ℚ)) :
    getContentQuads ((x0 :: y0 :: x1 :: y1 :: x2 :: y2 :: x3 :: y3 :: restq) :: restl)
      = some ⟨x0, y0, x1, y1, x2, y2, x3, y3, x1 - x0, y2 - y1,
              x0 + (x1 - x0) / 2, y1 + (y2 - y1) / 2⟩
  ∧ (getContentQuads [[0, 0, 10, 0, 10, 20, 0, 20]]).map
      (fun g => (g.width, g.height, g.centerX, g.centerY))
      = some ((10 : ℚ), (20 : ℚ), (5 : ℚ), (10 : ℚ)) := by
  constructor
  · rfl
  · norm_num [getContentQuads]

/-- C10, confirmed: whenever the class name of the first evaluation result
differs from NodeList and from HTMLHtmlElement, executeScript issues a
second Runtime.callFunctionOn with the same function declaration and the
same marshalled arguments, so the script runs twice; for NodeList and
root-HTML-element results exactly one such invocation occurs. -/
theorem executeScript_reinvokes_script (env : ExecEnv) (script : String)
    (args : List JSValue) :
    (env.firstResult.className ≠ some "NodeList" →
     env.firstResult.className ≠ some "HTMLHtmlElement" →
        ((executeScript env script args).1.filter isCallFunctionOn)
          = [CdpCall.callFunctionOn ("function() \x7b " ++ script ++ " \x7d")
               (args.map marshalArg) false,
             CdpCall.callFunctionOn ("function() \x7b " ++ script ++ " \x7d")
               (args.map marshalArg) true])
  ∧ ((env.firstResult.className = some "NodeList"
      ∨ env.firstResult.className = some "HTMLHtmlElement") →
        ((executeScript env script args).1.filter isCallFunctionOn)
          = [CdpCall.callFunctionOn ("function() \x7b " ++ script ++ " \x7d")
               (args.map marshalArg) false]) := by
  constructor
  · intro h1 h2
    simp [executeScript, h1, h2, isCallFunctionOn]
  · rintro (h | h) <;> simp [executeScript, h, isCallFunctionOn]

/-- Witness for C10 at a first result of class Object: the trace holds two
invocations of the wrapped script. -/
theorem executeScript_reinvokes_script_witness :
    ((executeScript ⟨some "w", ⟨some "Object", some "o"⟩, [], JSValue.null⟩
        "return 1" []).1.filter isCallFunctionOn)
      = [CdpCall.callFunctionOn ("function() \x7b " ++ "return 1" ++ " \x7d") [] false,
         CdpCall.callFunctionOn ("function() \x7b " ++ "return 1" ++ " \x7d") [] true] :=
  (executeScript_reinvokes_script ⟨some "w", ⟨some "Object", some "o"⟩, [], JSValue.null⟩
    "return 1" []).1 (by decide) (by decide)

end ZeroStep
